import Mathlib

/-!
# fireblocks-sdk-go: the authenticated-request pipeline of `client.go`

A shallow embedding of `client.go`: the client configuration (`options`,
`NewClient`, the `With...` directives) and the four request methods
(`ExtGet`, `get`, `post`, `put`).

What `client.go` calls but does not define is taken as a parameter, gathered
in `World`: the token signer `signJwt`, the JSON decoder `json.Unmarshal`, and
the HTTP exchange done by resty. A method returns a `Call`: the requests it
handed to the transport, the bodies it handed to the decoder, and its outcome.
-/

set_option autoImplicit false

/-! ## Go values -/

/-- A Go byte slice `[]byte`. -/
abbrev Bytes := List UInt8

/-- A Go `string`: an immutable sequence of bytes. -/
abbrev GoString := List UInt8

/-- The bytes of a Go string literal (Go source text is UTF-8). -/
def str (s : String) : GoString := s.toUTF8.data.toList

/-- The Go conversion `string(b)` of a byte slice: the same bytes. -/
def string (b : Bytes) : GoString := b

/-- A dynamic Go value `interface{}`, in the shapes `encoding/json` decodes to
and the request bodies take. A `float64` is kept as its 64 bits. -/
inductive GoAny where
  | nil
  | bool (b : Bool)
  | float64 (bits : Nat)
  | string (s : GoString)
  | slice (xs : List GoAny)
  | map (kv : List (GoString × GoAny))

instance : Inhabited GoAny := ⟨GoAny.nil⟩

/-- A Go `map[string]interface{}`; the nil map reads like the empty one. -/
abbrev GoMap := List (GoString × GoAny)

/-- The Go index expression `m[k]`: the stored value, or the zero value `nil`
of `interface{}` when the key is absent. -/
def GoMap.index (m : GoMap) (k : GoString) : GoAny :=
  match m.lookup k with
  | some v => v
  | none => GoAny.nil

/-- The Go assignment `m[k] = v`. -/
def GoMap.set (m : GoMap) (k : GoString) (v : GoAny) : GoMap :=
  (k, v) :: m.filter (fun p => p.1 != k)

/-- A Go `error` value: one made by `errors.New`, or one made by a library
(resty, net/http, context), told apart by an identifier. -/
inductive GoError where
  | errorString (s : GoString)
  | library (id : Nat) (text : GoString)
  deriving DecidableEq, Repr

/-- The Go function `errors.New`. -/
def errors.New (text : GoString) : GoError := GoError.errorString text

/-- The method `Error()` of an error: its text. -/
def GoError.Error : GoError → GoString
  | GoError.errorString s => s
  | GoError.library _ text => text

/-- A `time.Duration`: a count of nanoseconds. -/
abbrev time.Duration := Int

/-- The Go constant `time.Second`. -/
def time.Second : time.Duration := 1000000000

/-- A `context.Context`: the background context, or another one. -/
inductive context.Context where
  | background
  | other (id : Nat)
  deriving DecidableEq, Repr

/-- The Go function `context.Background`. -/
def context.Background : context.Context := context.Context.background

/-- A `*http.Client`: the `&http.Client{}` that `NewClient` allocates, or
another pointer (nil included). -/
inductive http.Client where
  | zero
  | other (id : Nat)
  deriving DecidableEq, Repr

/-- An `http.Header`: the values stored under each key. `Set` and `Get`
canonicalise a key in the same way, so keys are kept as written. -/
abbrev http.Header := List (GoString × List GoString)

/-- The method `Header.Set`: the key now holds the single value. -/
def http.Header.Set (h : http.Header) (key value : GoString) : http.Header :=
  (key, [value]) :: h.filter (fun p => p.1 != key)

/-- Whether the key is in the header set (`_, ok := h[key]`). -/
def http.Header.has (h : http.Header) (key : GoString) : Bool :=
  (h.lookup key).isSome

/-- The method `Header.Get`: the first value under the key, `""` when there
is none. -/
def http.Header.Get (h : http.Header) (key : GoString) : GoString :=
  match h.lookup key with
  | some (v :: _) => v
  | _ => []

/-! ## The configuration -/

/-- The struct `options`. -/
structure options where
  privateKey : GoString
  apiKey : GoString
  apiUrl : GoString
  hc : http.Client
  ctx : context.Context
  timeout : time.Duration
  deriving DecidableEq, Repr

/-- The struct `Request`. -/
structure Request where
  options : options
  deriving DecidableEq, Repr

/-- The type `request` of the field `FireblocksSDK.request` and of the
receiver of `put`; `NewClient` stores a `Request` in it. -/
abbrev request := Request

/-- The struct `FireblocksSDK`; both fields point to the same `options`. -/
structure FireblocksSDK where
  options : options
  request : request
  deriving DecidableEq, Repr

/-- The function `WithPrivateKey`. -/
def WithPrivateKey (privateKey : GoString) : options → options :=
  fun o => { o with privateKey := privateKey }

/-- The function `WithApiKey`. -/
def WithApiKey (apiKey : GoString) : options → options :=
  fun o => { o with apiKey := apiKey }

/-- The function `WithApiUrl`. -/
def WithApiUrl (apiUrl : GoString) : options → options :=
  fun o => { o with apiUrl := apiUrl }

/-- The function `WithClient`. -/
def WithClient (hc : http.Client) : options → options :=
  fun o => { o with hc := hc }

/-- The function `WithTimeout`. -/
def WithTimeout (timeout : time.Duration) : options → options :=
  fun o => { o with timeout := timeout }

/-- The function `WithContext`. -/
def WithContext (ctx : context.Context) : options → options :=
  fun o => { o with ctx := ctx }

/-- The function `NewClient`: the option functions, which mutate the struct
they are given, run in order on the defaults. -/
def NewClient (optionFuncs : List (options → options)) : FireblocksSDK :=
  let options : options :=
    { privateKey := [],
      apiKey := [],
      apiUrl := str "https://api.fireblocks.io",
      hc := http.Client.zero,
      timeout := 5 * time.Second,
      ctx := context.Background }
  let options := optionFuncs.foldl (fun o optionFunc => optionFunc o) options
  { options := options, request := { options := options } }

/-! ## resty -/

/-- The part of a `*resty.Client` the methods set up. -/
structure resty.Client where
  httpClient : http.Client
  timeout : time.Duration

/-- The function `resty.NewWithClient`. -/
def resty.NewWithClient (hc : http.Client) : resty.Client :=
  { httpClient := hc, timeout := 0 }

/-- The method `Client.SetTimeout`. -/
def resty.Client.SetTimeout (c : resty.Client) (timeout : time.Duration) : resty.Client :=
  { c with timeout := timeout }

/-- A `*resty.Request`: what the builder calls have set so far. `Body` is
`none` as long as `SetBody` was not called. -/
structure resty.Request where
  client : resty.Client
  ctx : Option context.Context
  Header : http.Header
  Body : Option GoAny
  Method : GoString
  URL : GoString

/-- The method `Client.R`: a fresh request of the client. -/
def resty.Client.R (c : resty.Client) : resty.Request :=
  { client := c, ctx := none, Header := [], Body := none, Method := [], URL := [] }

/-- The method `Request.SetContext`. -/
def resty.Request.SetContext (r : resty.Request) (ctx : context.Context) : resty.Request :=
  { r with ctx := some ctx }

/-- The method `Request.SetHeader`, which is `r.Header.Set(header, value)`. -/
def resty.Request.SetHeader (r : resty.Request) (header value : GoString) : resty.Request :=
  { r with Header := r.Header.Set header value }

/-- The method `Request.SetBody`. -/
def resty.Request.SetBody (r : resty.Request) (body : GoAny) : resty.Request :=
  { r with Body := some body }

/-- A `*resty.Response`: its status code and its body. -/
structure resty.Response where
  statusCode : Nat
  body : Bytes
  deriving DecidableEq, Repr

/-- The method `Response.Body`. -/
def resty.Response.Body (r : resty.Response) : Bytes := r.body

/-- The method `Response.IsError`: the status code is above 399. -/
def resty.Response.IsError (r : resty.Response) : Bool := decide (r.statusCode > 399)

/-- The HTTP exchange behind `Get`, `Post` and `Put`: the response, or the
error resty reports. -/
abbrev Transport := resty.Request → Except GoError resty.Response

/-- The method `Request.Execute`: the request takes the method and the URL
and goes to the transport. The request as dispatched is returned too. -/
def resty.Request.Execute (r : resty.Request) (transport : Transport)
    (method url : GoString) : resty.Request × Except GoError resty.Response :=
  let r := { r with Method := method, URL := url }
  (r, transport r)

/-- The method `Request.Get`. -/
def resty.Request.Get (r : resty.Request) (transport : Transport) (url : GoString) :
    resty.Request × Except GoError resty.Response :=
  r.Execute transport (str "GET") url

/-- The method `Request.Post`. -/
def resty.Request.Post (r : resty.Request) (transport : Transport) (url : GoString) :
    resty.Request × Except GoError resty.Response :=
  r.Execute transport (str "POST") url

/-- The method `Request.Put`. -/
def resty.Request.Put (r : resty.Request) (transport : Transport) (url : GoString) :
    resty.Request × Except GoError resty.Response :=
  r.Execute transport (str "PUT") url

/-! ## What `client.go` calls and does not define -/

/-- Modelled from the spec: the struct `RequestOptions` is not declared in
`client.go`, which reads its field `IdempotencyKey`; the spec gives it as the
per-call settings `{idempotencyKey: string}`. A `*RequestOptions` is an
`Option RequestOptions`, `none` being the nil pointer. -/
structure RequestOptions where
  IdempotencyKey : GoString
  deriving DecidableEq, Repr

/-- The surroundings of a call.
* `signJwt` is the method `Request.signJwt(path, body)`, which `client.go`
  calls and does not define. Its call sites use its one result as a string, so
  it has no error result; `none` stands for a call that does not return.
* `unmarshal` is `json.Unmarshal(data, &errResp)` for `errResp` a nil
  `map[string]interface{}`: the decoded map, or the decoding error.
* `execute` is the HTTP exchange of resty. -/
structure World where
  signJwt : Request → GoString → GoAny → Option GoString
  unmarshal : Bytes → Except GoError GoMap
  execute : Transport

/-! ## The request methods -/

/-- How a call ends: it returns `([]byte, error)` (`none` is nil), or the
type assertion `.(string)` panics, or `signJwt` did not return. -/
inductive Outcome where
  | ret (bytes : Option Bytes) (err : Option GoError)
  | panic
  | signingAborted
  deriving DecidableEq, Repr

/-- A call of a request method: the requests handed to the transport, the
bodies handed to `json.Unmarshal`, and the outcome. -/
structure Call where
  sent : List resty.Request
  decoded : List Bytes
  result : Outcome

/-- The method `Request.ExtGet`. -/
def Request.ExtGet (w : World) (r : Request) (path : GoString) : Call :=
  let client := resty.NewWithClient r.options.hc
  let client := client.SetTimeout r.options.timeout
  match w.signJwt r path (GoAny.string (str "")) with
  | none => { sent := [], decoded := [], result := Outcome.signingAborted }
  | some token =>
    match (((client.R.SetContext r.options.ctx).SetHeader (str "X-API-Key") r.options.apiKey).SetHeader
        (str "Authorization") (str "Bearer " ++ token)).Get w.execute (r.options.apiUrl ++ path) with
    | (req, Except.error err) =>
      { sent := [req], decoded := [], result := Outcome.ret none (some err) }
    | (req, Except.ok resp) =>
      if resp.IsError then
        match w.unmarshal resp.Body with
        | Except.error _ =>
          { sent := [req], decoded := [resp.Body],
            result := Outcome.ret none (some (errors.New (string resp.Body))) }
        | Except.ok errResp =>
          match errResp.index (str "message") with
          | GoAny.string message =>
            { sent := [req], decoded := [resp.Body],
              result := Outcome.ret none (some (errors.New message)) }
          | _ => { sent := [req], decoded := [resp.Body], result := Outcome.panic }
      else
        { sent := [req], decoded := [], result := Outcome.ret (some resp.Body) none }

/-- The method `Request.get`. -/
def Request.get (w : World) (r : Request) (path : GoString) : Call :=
  let client := resty.NewWithClient r.options.hc
  let client := client.SetTimeout r.options.timeout
  match w.signJwt r path (GoAny.string (str "")) with
  | none => { sent := [], decoded := [], result := Outcome.signingAborted }
  | some token =>
    match (((client.R.SetContext r.options.ctx).SetHeader (str "X-API-Key") r.options.apiKey).SetHeader
        (str "Authorization") (str "Bearer " ++ token)).Get w.execute (r.options.apiUrl ++ path) with
    | (req, Except.error err) =>
      { sent := [req], decoded := [], result := Outcome.ret none (some err) }
    | (req, Except.ok resp) =>
      if resp.IsError then
        match w.unmarshal resp.Body with
        | Except.error _ =>
          { sent := [req], decoded := [resp.Body],
            result := Outcome.ret none (some (errors.New (string resp.Body))) }
        | Except.ok errResp =>
          match errResp.index (str "message") with
          | GoAny.string message =>
            { sent := [req], decoded := [resp.Body],
              result := Outcome.ret none (some (errors.New message)) }
          | _ => { sent := [req], decoded := [resp.Body], result := Outcome.panic }
      else
        { sent := [req], decoded := [], result := Outcome.ret (some resp.Body) none }

/-- The method `Request.post`. -/
def Request.post (w : World) (r : Request) (path : GoString) (body : GoAny)
    (requestOptions : Option RequestOptions) : Call :=
  let client := resty.NewWithClient r.options.hc
  let client := client.SetTimeout r.options.timeout
  let idempotencyKey : GoString := str ""
  let idempotencyKey : GoString :=
    match requestOptions with
    | some ro => if ro.IdempotencyKey ≠ str "" then ro.IdempotencyKey else idempotencyKey
    | none => idempotencyKey
  match w.signJwt r path body with
  | none => { sent := [], decoded := [], result := Outcome.signingAborted }
  | some token =>
    match (((((client.R.SetContext r.options.ctx).SetHeader (str "X-API-Key") r.options.apiKey).SetHeader
        (str "Authorization") (str "Bearer " ++ token)).SetHeader
        (str "Idempotency-Key") idempotencyKey).SetBody body).Post w.execute
        (r.options.apiUrl ++ path) with
    | (req, Except.error err) =>
      { sent := [req], decoded := [], result := Outcome.ret none (some err) }
    | (req, Except.ok resp) =>
      if resp.IsError then
        match w.unmarshal resp.Body with
        | Except.error _ =>
          { sent := [req], decoded := [resp.Body],
            result := Outcome.ret none (some (errors.New (string resp.Body))) }
        | Except.ok errResp =>
          match errResp.index (str "message") with
          | GoAny.string message =>
            { sent := [req], decoded := [resp.Body],
              result := Outcome.ret none (some (errors.New message)) }
          | _ => { sent := [req], decoded := [resp.Body], result := Outcome.panic }
      else
        { sent := [req], decoded := [], result := Outcome.ret (some resp.Body) none }

/-- The method `request.put`. -/
def request.put (w : World) (r : request) (path : GoString) (body : GoAny) : Call :=
  let client := resty.NewWithClient r.options.hc
  let client := client.SetTimeout r.options.timeout
  match w.signJwt r path body with
  | none => { sent := [], decoded := [], result := Outcome.signingAborted }
  | some token =>
    match ((((client.R.SetContext r.options.ctx).SetHeader (str "X-API-Key") r.options.apiKey).SetHeader
        (str "Authorization") (str "Bearer " ++ token)).SetBody body).Put w.execute
        (r.options.apiUrl ++ path) with
    | (req, Except.error err) =>
      { sent := [req], decoded := [], result := Outcome.ret none (some err) }
    | (req, Except.ok resp) =>
      if resp.IsError then
        match w.unmarshal resp.Body with
        | Except.error _ =>
          { sent := [req], decoded := [resp.Body],
            result := Outcome.ret none (some (errors.New (string resp.Body))) }
        | Except.ok errResp =>
          match errResp.index (str "message") with
          | GoAny.string message =>
            { sent := [req], decoded := [resp.Body],
              result := Outcome.ret none (some (errors.New message)) }
          | _ => { sent := [req], decoded := [resp.Body], result := Outcome.panic }
      else
        { sent := [req], decoded := [], result := Outcome.ret (some resp.Body) none }

/-! ## Calls, for stating properties of the four methods at once -/

/-- A call of one of the four request methods, with its arguments. -/
inductive Op where
  | ExtGet (path : GoString)
  | get (path : GoString)
  | post (path : GoString) (body : GoAny) (requestOptions : Option RequestOptions)
  | put (path : GoString) (body : GoAny)

/-- Runs the method the call names. -/
def Op.run (w : World) (r : Request) : Op → Call
  | Op.ExtGet path => Request.ExtGet w r path
  | Op.get path => Request.get w r path
  | Op.post path body requestOptions => Request.post w r path body requestOptions
  | Op.put path body => request.put w r path body

/-- The path argument of the call. -/
def Op.path : Op → GoString
  | Op.ExtGet path => path
  | Op.get path => path
  | Op.post path _ _ => path
  | Op.put path _ => path

/-- The body a token is expected to be computed over: the empty string for
`ExtGet` and `get`, the call's own body for `post` and `put`. -/
def Op.signedBody : Op → GoAny
  | Op.ExtGet _ => GoAny.string (str "")
  | Op.get _ => GoAny.string (str "")
  | Op.post _ body _ => body
  | Op.put _ body => body

/-- The body a request is expected to carry: none for `ExtGet` and `get`, the
call's own body for `post` and `put`. -/
def Op.attachedBody : Op → Option GoAny
  | Op.ExtGet _ => none
  | Op.get _ => none
  | Op.post _ body _ => some body
  | Op.put _ body => some body

/-- The HTTP method a request is expected to use. -/
def Op.method : Op → GoString
  | Op.ExtGet _ => str "GET"
  | Op.get _ => str "GET"
  | Op.post _ _ _ => str "POST"
  | Op.put _ _ => str "PUT"

/-- The last value a sequence of items gives through `sel`, or `dflt` when
no item gives one. -/
def lastValue {α β : Type} (sel : α → Option β) (items : List α) (dflt : β) : β :=
  ((items.filterMap sel).getLast?).getD dflt

/-- A configuration directive: one of the six `With...` functions applied to
its argument. -/
inductive Directive where
  | privateKey (privateKey : GoString)
  | apiKey (apiKey : GoString)
  | apiUrl (apiUrl : GoString)
  | client (hc : http.Client)
  | timeout (timeout : time.Duration)
  | context (ctx : context.Context)
  deriving DecidableEq, Repr

/-- The option function a directive stands for. -/
def Directive.func : Directive → (options → options)
  | Directive.privateKey v => WithPrivateKey v
  | Directive.apiKey v => WithApiKey v
  | Directive.apiUrl v => WithApiUrl v
  | Directive.client v => WithClient v
  | Directive.timeout v => WithTimeout v
  | Directive.context v => WithContext v

/-- The private key a directive sets, when it targets that field. -/
def Directive.privateKey? : Directive → Option GoString
  | Directive.privateKey v => some v
  | _ => none

/-- The API key a directive sets, when it targets that field. -/
def Directive.apiKey? : Directive → Option GoString
  | Directive.apiKey v => some v
  | _ => none

/-- The API URL a directive sets, when it targets that field. -/
def Directive.apiUrl? : Directive → Option GoString
  | Directive.apiUrl v => some v
  | _ => none

/-- The HTTP client a directive sets, when it targets that field. -/
def Directive.client? : Directive → Option http.Client
  | Directive.client v => some v
  | _ => none

/-- The timeout a directive sets, when it targets that field. -/
def Directive.timeout? : Directive → Option time.Duration
  | Directive.timeout v => some v
  | _ => none

/-- The context a directive sets, when it targets that field. -/
def Directive.context? : Directive → Option context.Context
  | Directive.context v => some v
  | _ => none

/-! ## A concrete world

The properties below hold for every `World`. To evaluate the methods at
concrete inputs a world is fixed here: a decoder for the JSON objects whose
members are plain strings, a stand-in signer, and a transport with a fixed
reply. -/

/-- A JSON whitespace byte: space, tab, line feed, carriage return. -/
def json.isSpace (b : UInt8) : Bool :=
  b == 0x20 || b == 0x09 || b == 0x0A || b == 0x0D

/-- Drops the leading whitespace. -/
def json.skipSpace : Bytes → Bytes
  | [] => []
  | b :: rest => if json.isSpace b then json.skipSpace rest else b :: rest

/-- Reads a string literal from after its opening quote to its closing quote:
the text and the rest of the input. Only literals of printable ASCII without
a backslash are read. -/
def json.readPlainString : Bytes → Option (GoString × Bytes)
  | [] => none
  | b :: rest =>
    if b == 0x22 then some ([], rest)
    else if b == 0x5C || b < 0x20 || b > 0x7E then none
    else
      match json.readPlainString rest with
      | some (s, rest) => some (b :: s, rest)
      | none => none

/-- Reads a quoted string after optional whitespace. -/
def json.readQuoted (input : Bytes) : Option (GoString × Bytes) :=
  match json.skipSpace input with
  | b :: rest => if b == 0x22 then json.readPlainString rest else none
  | [] => none

/-- Reads one member `"key" : "value"`. -/
def json.readMember (input : Bytes) : Option (GoString × GoString × Bytes) :=
  match json.readQuoted input with
  | none => none
  | some (k, rest) =>
    match json.skipSpace rest with
    | b :: rest =>
      if b == 0x3A then
        match json.readQuoted rest with
        | some (v, rest) => some (k, v, rest)
        | none => none
      else none
    | [] => none

/-- Reads what follows a member: a closing brace, or a comma and the next
member. A later member replaces an earlier one of the same key. -/
def json.readMembers : Nat → Bytes → GoMap → Option (GoMap × Bytes)
  | 0, _, _ => none
  | fuel + 1, input, m =>
    match json.skipSpace input with
    | b :: rest =>
      if b == 0x7D then some (m, rest)
      else if b == 0x2C then
        match json.readMember rest with
        | some (k, v, rest) => json.readMembers fuel rest (m.set k (GoAny.string v))
        | none => none
      else none
    | [] => none

/-- The error of the decoder below. -/
def json.decodeError : GoError := GoError.library 1 (str "json: cannot decode")

/-- A decoder for one fragment of JSON: an object whose members are strings,
keys and values being literals of printable ASCII without escapes. On such a
text it gives the map `json.Unmarshal` gives; any other input is refused. -/
def json.unmarshalStringObject (data : Bytes) : Except GoError GoMap :=
  match json.skipSpace data with
  | b :: rest =>
    if b == 0x7B then
      match json.skipSpace rest with
      | c :: rest1 =>
        if c == 0x7D then
          if json.skipSpace rest1 = [] then Except.ok [] else Except.error json.decodeError
        else
          match json.readMember (c :: rest1) with
          | some (k, v, rest2) =>
            match json.readMembers data.length rest2 (GoMap.set [] k (GoAny.string v)) with
            | some (m, tail) =>
              if json.skipSpace tail = [] then Except.ok m else Except.error json.decodeError
            | none => Except.error json.decodeError
          | none => Except.error json.decodeError
      | [] => Except.error json.decodeError
    else Except.error json.decodeError
  | [] => Except.error json.decodeError

/-- A stand-in signer: the token names the API key, the path and, for a
string body, the body. It always returns. -/
def testSigner (r : Request) (path : GoString) (body : GoAny) : Option GoString :=
  some (str "jwt/" ++ r.options.apiKey ++ str "/" ++ path ++ str "/" ++
    (match body with
     | GoAny.string s => s
     | _ => str "*"))

/-- The world whose transport gives `reply` to every request. -/
def testWorld (reply : Except GoError resty.Response) : World :=
  { signJwt := testSigner, unmarshal := json.unmarshalStringObject, execute := fun _ => reply }

/-- The default client: `NewClient()` without option functions. -/
def defaultClient : FireblocksSDK := NewClient []

/-- A response of status 200 whose body is empty. -/
def emptyOkResponse : resty.Response := { statusCode := 200, body := [] }

/-- A response of status 400 whose body is the JSON object with the message
`bad request`. -/
def badRequestResponse : resty.Response :=
  { statusCode := 400, body := str "\x7b\"message\":\"bad request\"\x7d" }

/-- A response of status 400 whose body is the text `not json`. -/
def notJsonResponse : resty.Response := { statusCode := 400, body := str "not json" }

/-- A response of status 400 whose body is the empty JSON object. -/
def emptyObjectResponse : resty.Response := { statusCode := 400, body := str "\x7b\x7d" }

/-- A transport failure: the request timed out. -/
def timeoutError : GoError := GoError.library 2 (str "context deadline exceeded")

/-! ## The shape shared by the four methods -/

/-- The request a method builds once `signJwt` has returned `token`. -/
def Op.request (r : Request) (token : GoString) : Op → resty.Request
  | Op.ExtGet path =>
    { ((((resty.NewWithClient r.options.hc).SetTimeout r.options.timeout).R.SetContext
        r.options.ctx).SetHeader (str "X-API-Key") r.options.apiKey).SetHeader
        (str "Authorization") (str "Bearer " ++ token) with
      Method := str "GET", URL := r.options.apiUrl ++ path }
  | Op.get path =>
    { ((((resty.NewWithClient r.options.hc).SetTimeout r.options.timeout).R.SetContext
        r.options.ctx).SetHeader (str "X-API-Key") r.options.apiKey).SetHeader
        (str "Authorization") (str "Bearer " ++ token) with
      Method := str "GET", URL := r.options.apiUrl ++ path }
  | Op.post path body requestOptions =>
    { ((((((resty.NewWithClient r.options.hc).SetTimeout r.options.timeout).R.SetContext
        r.options.ctx).SetHeader (str "X-API-Key") r.options.apiKey).SetHeader
        (str "Authorization") (str "Bearer " ++ token)).SetHeader (str "Idempotency-Key")
        (match requestOptions with
         | some ro => if ro.IdempotencyKey ≠ str "" then ro.IdempotencyKey else str ""
         | none => str "")).SetBody body with
      Method := str "POST", URL := r.options.apiUrl ++ path }
  | Op.put path body =>
    { (((((resty.NewWithClient r.options.hc).SetTimeout r.options.timeout).R.SetContext
        r.options.ctx).SetHeader (str "X-API-Key") r.options.apiKey).SetHeader
        (str "Authorization") (str "Bearer " ++ token)).SetBody body with
      Method := str "PUT", URL := r.options.apiUrl ++ path }

/-- What each method does once its request is built: the exchange, and the
reading of the response. -/
def World.conclude (w : World) (req : resty.Request) : Call :=
  match w.execute req with
  | Except.error err => { sent := [req], decoded := [], result := Outcome.ret none (some err) }
  | Except.ok resp =>
    if resp.IsError then
      match w.unmarshal resp.Body with
      | Except.error _ =>
        { sent := [req], decoded := [resp.Body],
          result := Outcome.ret none (some (errors.New (string resp.Body))) }
      | Except.ok errResp =>
        match errResp.index (str "message") with
        | GoAny.string message =>
          { sent := [req], decoded := [resp.Body],
            result := Outcome.ret none (some (errors.New message)) }
        | _ => { sent := [req], decoded := [resp.Body], result := Outcome.panic }
    else
      { sent := [req], decoded := [], result := Outcome.ret (some resp.Body) none }

/-! ## Lemmas -/

/-- Each method either stops at `signJwt`, or builds its request and concludes
on it. -/
theorem Op.run_eq (w : World) (r : Request) (op : Op) :
    op.run w r =
      match w.signJwt r op.path op.signedBody with
      | none => { sent := [], decoded := [], result := Outcome.signingAborted }
      | some token => w.conclude (op.request r token) := by
  cases op <;>
    simp only [Op.run, Op.path, Op.signedBody, Op.request, Request.ExtGet, Request.get,
      Request.post, request.put, World.conclude, resty.Request.Get, resty.Request.Post,
      resty.Request.Put, resty.Request.Execute] <;>
    split <;> first
      | rfl
      | (generalize w.execute _ = reply; cases reply <;> rfl)

/-- Whatever the reply, a concluded call has handed exactly its request to
the transport. -/
theorem World.conclude_sent (w : World) (req : resty.Request) :
    (w.conclude req).sent = [req] := by
  unfold World.conclude
  split
  · rfl
  · split
    · split
      · rfl
      · split <;> rfl
    · rfl

/-- A call whose request got `reply` from the transport is the conclusion on
that request. -/
theorem Op.run_of_reply (w : World) (r : Request) (op : Op)
    (reply : Except GoError resty.Response)
    (h : ∃ req ∈ (op.run w r).sent, w.execute req = reply) :
    ∃ req, op.run w r = w.conclude req ∧ w.execute req = reply := by
  rw [Op.run_eq] at h ⊢
  cases hsig : w.signJwt r op.path op.signedBody with
  | none =>
    rw [hsig] at h
    obtain ⟨req, hmem, _⟩ := h
    exact absurd hmem (List.not_mem_nil req)
  | some token =>
    rw [hsig] at h
    obtain ⟨req, hmem, hex⟩ := h
    have hreq : req = op.request r token := by
      have hm : req ∈ (w.conclude (op.request r token)).sent := hmem
      rw [World.conclude_sent] at hm
      exact List.mem_singleton.mp hm
    subst hreq
    exact ⟨op.request r token, rfl, hex⟩

/-- After `Set`, the key is in the header set. -/
theorem http.Header.has_Set_self (h : http.Header) (key value : GoString) :
    http.Header.has (http.Header.Set h key value) key = true := by
  simp [http.Header.has, http.Header.Set, List.lookup]

/-- After `Set`, `Get` on the key gives the value. -/
theorem http.Header.Get_Set_self (h : http.Header) (key value : GoString) :
    http.Header.Get (http.Header.Set h key value) key = value := by
  simp [http.Header.Get, http.Header.Set, List.lookup]

/-- A lookup does not see the removal of another key. -/
theorem http.Header.lookup_filter_ne (h : http.Header) (key other : GoString)
    (hne : other ≠ key) :
    List.lookup other (h.filter (fun p => p.1 != key)) = List.lookup other h := by
  induction h with
  | nil => rfl
  | cons p rest ih =>
    obtain ⟨k, v⟩ := p
    by_cases hk : k = key
    · subst hk
      have hb : (other == k) = false := by simpa using hne
      simp [List.filter, List.lookup, hb, ih]
    · have hf : (k != key) = true := by simpa using hk
      simp only [List.filter, hf, List.lookup]
      cases other == k <;> simp [ih]

/-- A lookup of another key is unchanged by `Set`. -/
theorem http.Header.lookup_Set_ne (h : http.Header) (key value other : GoString)
    (hne : other ≠ key) :
    List.lookup other (http.Header.Set h key value) = List.lookup other h := by
  have hb : (other == key) = false := by simpa using hne
  simp only [http.Header.Set, List.lookup, hb]
  exact http.Header.lookup_filter_ne h key other hne

/-- The presence of another key is unchanged by `Set`. -/
theorem http.Header.has_Set_ne (h : http.Header) (key value other : GoString)
    (hne : other ≠ key) :
    http.Header.has (http.Header.Set h key value) other = http.Header.has h other := by
  simp only [http.Header.has, http.Header.lookup_Set_ne h key value other hne]

/-- The value under another key is unchanged by `Set`. -/
theorem http.Header.Get_Set_ne (h : http.Header) (key value other : GoString)
    (hne : other ≠ key) :
    http.Header.Get (http.Header.Set h key value) other = http.Header.Get h other := by
  simp only [http.Header.Get, http.Header.lookup_Set_ne h key value other hne]

/-! ## Reading the response (C1 to C4) -/

/-- C1: for `ExtGet`, `get`, `post` and `put` alike, when the transport
answers the call's request with a response and no error, and the response's
status is not an error status, the call returns the response body, whatever
its bytes, and a nil error. -/
theorem success_returns_body (w : World) (r : Request) (op : Op) (resp : resty.Response)
    (hreply : ∃ req ∈ (op.run w r).sent, w.execute req = Except.ok resp)
    (hstatus : resp.IsError = false) :
    (op.run w r).result = Outcome.ret (some resp.Body) none := by
  obtain ⟨req, hrun, hex⟩ := Op.run_of_reply w r op _ hreply
  rw [hrun]
  simp [World.conclude, hex, hstatus]

/-- C1 at `get("/v1/vault/accounts")` on the default client, answered by
status 200 with the empty body: the call returns the empty body and no error. -/
theorem success_returns_body_witness :
    (∃ req ∈ ((Op.get (str "/v1/vault/accounts")).run
        (testWorld (Except.ok emptyOkResponse)) defaultClient.request).sent,
      (testWorld (Except.ok emptyOkResponse)).execute req = Except.ok emptyOkResponse) ∧
    emptyOkResponse.IsError = false ∧
    ((Op.get (str "/v1/vault/accounts")).run
        (testWorld (Except.ok emptyOkResponse)) defaultClient.request).result =
      Outcome.ret (some []) none :=
  ⟨⟨_, List.Mem.head _, rfl⟩, by decide,
   success_returns_body (testWorld (Except.ok emptyOkResponse)) defaultClient.request
     (Op.get (str "/v1/vault/accounts")) emptyOkResponse ⟨_, List.Mem.head _, rfl⟩ (by decide)⟩

/-- C2: for `ExtGet`, `get`, `post` and `put` alike, when the response has an
error status and its body decodes to an object whose `"message"` is the string
`m`, the call returns nil bytes and an error whose text is `m`. -/
theorem error_message_is_returned (w : World) (r : Request) (op : Op) (resp : resty.Response)
    (errResp : GoMap) (m : GoString)
    (hreply : ∃ req ∈ (op.run w r).sent, w.execute req = Except.ok resp)
    (hstatus : resp.IsError = true)
    (hdecode : w.unmarshal resp.Body = Except.ok errResp)
    (hmessage : errResp.index (str "message") = GoAny.string m) :
    ∃ err, (op.run w r).result = Outcome.ret none (some err) ∧ err.Error = m := by
  obtain ⟨req, hrun, hex⟩ := Op.run_of_reply w r op _ hreply
  refine ⟨errors.New m, ?_, rfl⟩
  rw [hrun]
  simp [World.conclude, hex, hstatus, hdecode, hmessage]

/-- C2 at `get("/v1/vault/accounts")` answered by status 400 with the body
`{"message":"bad request"}`: the error text is `bad request`. -/
theorem error_message_is_returned_witness :
    (∃ req ∈ ((Op.get (str "/v1/vault/accounts")).run
        (testWorld (Except.ok badRequestResponse)) defaultClient.request).sent,
      (testWorld (Except.ok badRequestResponse)).execute req = Except.ok badRequestResponse) ∧
    badRequestResponse.IsError = true ∧
    (testWorld (Except.ok badRequestResponse)).unmarshal badRequestResponse.Body =
      Except.ok [(str "message", GoAny.string (str "bad request"))] ∧
    GoMap.index [(str "message", GoAny.string (str "bad request"))] (str "message") =
      GoAny.string (str "bad request") ∧
    ∃ err, ((Op.get (str "/v1/vault/accounts")).run
        (testWorld (Except.ok badRequestResponse)) defaultClient.request).result =
      Outcome.ret none (some err) ∧ err.Error = str "bad request" :=
  ⟨⟨_, List.Mem.head _, rfl⟩, by decide, by rfl, by rfl,
   error_message_is_returned (testWorld (Except.ok badRequestResponse)) defaultClient.request
     (Op.get (str "/v1/vault/accounts")) badRequestResponse
     [(str "message", GoAny.string (str "bad request"))] (str "bad request")
     ⟨_, List.Mem.head _, rfl⟩ (by decide) (by rfl) (by rfl)⟩

/-- C3: for `ExtGet`, `get`, `post` and `put` alike, when the response has an
error status and `json.Unmarshal` of its body into the map fails, the call
returns nil bytes and an error whose text is the body, byte for byte. -/
theorem undecodable_body_is_returned (w : World) (r : Request) (op : Op)
    (resp : resty.Response) (decodeErr : GoError)
    (hreply : ∃ req ∈ (op.run w r).sent, w.execute req = Except.ok resp)
    (hstatus : resp.IsError = true)
    (hdecode : w.unmarshal resp.Body = Except.error decodeErr) :
    ∃ err, (op.run w r).result = Outcome.ret none (some err) ∧ err.Error = string resp.Body := by
  obtain ⟨req, hrun, hex⟩ := Op.run_of_reply w r op _ hreply
  refine ⟨errors.New (string resp.Body), ?_, rfl⟩
  rw [hrun]
  simp [World.conclude, hex, hstatus, hdecode]

/-- C3 at `put("/v1/x", "b")` answered by status 400 with the body `not json`:
the error text is `not json`. -/
theorem undecodable_body_is_returned_witness :
    (∃ req ∈ ((Op.put (str "/v1/x") (GoAny.string (str "b"))).run
        (testWorld (Except.ok notJsonResponse)) defaultClient.request).sent,
      (testWorld (Except.ok notJsonResponse)).execute req = Except.ok notJsonResponse) ∧
    notJsonResponse.IsError = true ∧
    (testWorld (Except.ok notJsonResponse)).unmarshal notJsonResponse.Body =
      Except.error json.decodeError ∧
    ∃ err, ((Op.put (str "/v1/x") (GoAny.string (str "b"))).run
        (testWorld (Except.ok notJsonResponse)) defaultClient.request).result =
      Outcome.ret none (some err) ∧ err.Error = str "not json" :=
  ⟨⟨_, List.Mem.head _, rfl⟩, by decide, by rfl,
   undecodable_body_is_returned (testWorld (Except.ok notJsonResponse)) defaultClient.request
     (Op.put (str "/v1/x") (GoAny.string (str "b"))) notJsonResponse json.decodeError
     ⟨_, List.Mem.head _, rfl⟩ (by decide) (by rfl)⟩

/-- A decoded object whose `"message"` is not a string, absent included,
makes each of the four methods panic at the type assertion. -/
theorem panics_without_string_message (w : World) (r : Request) (op : Op)
    (resp : resty.Response) (errResp : GoMap)
    (hreply : ∃ req ∈ (op.run w r).sent, w.execute req = Except.ok resp)
    (hstatus : resp.IsError = true)
    (hdecode : w.unmarshal resp.Body = Except.ok errResp)
    (hmessage : ∀ m, errResp.index (str "message") ≠ GoAny.string m) :
    (op.run w r).result = Outcome.panic := by
  obtain ⟨req, hrun, hex⟩ := Op.run_of_reply w r op _ hreply
  rw [hrun]
  simp only [World.conclude, hex, hstatus, if_true]
  rw [hdecode]
  show (match errResp.index (str "message") with
    | GoAny.string message =>
      ({ sent := [req], decoded := [resp.Body],
         result := Outcome.ret none (some (errors.New message)) } : Call)
    | _ => { sent := [req], decoded := [resp.Body], result := Outcome.panic }).result =
    Outcome.panic
  split
  · next m hm => exact absurd hm (hmessage m)
  · rfl

/-- C4, the code at the failing input: answered by status 400 with the body
`{}`, which decodes to an object without `"message"`, each of `ExtGet`, `get`,
`post` and `put` panics at `errResp["message"].(string)`; none returns an
error. -/
theorem empty_object_error_body_panics :
    (Request.ExtGet (testWorld (Except.ok emptyObjectResponse)) defaultClient.request
        (str "/v1/x")).result = Outcome.panic ∧
    (Request.get (testWorld (Except.ok emptyObjectResponse)) defaultClient.request
        (str "/v1/x")).result = Outcome.panic ∧
    (Request.post (testWorld (Except.ok emptyObjectResponse)) defaultClient.request
        (str "/v1/x") (GoAny.string (str "b")) none).result = Outcome.panic ∧
    (request.put (testWorld (Except.ok emptyObjectResponse)) defaultClient.request
        (str "/v1/x") (GoAny.string (str "b"))).result = Outcome.panic := by
  decide

/-! ## The configuration (C5) -/

/-- The last value of a sequence that starts with `d` is that of the rest,
falling back on what `d` gives. -/
theorem lastValue_cons {α β : Type} (sel : α → Option β) (d : α) (ds : List α) (dflt : β) :
    lastValue sel (d :: ds) dflt = lastValue sel ds ((sel d).getD dflt) := by
  unfold lastValue
  cases hd : sel d with
  | none => simp [List.filterMap_cons, hd]
  | some v =>
    simp only [List.filterMap_cons, hd, Option.getD_some]
    cases hl : List.filterMap sel ds with
    | nil => rfl
    | cons x xs =>
      rw [List.getLast?_cons_cons, List.getLast?_eq_getLast (x :: xs) (List.cons_ne_nil x xs)]
      rfl

/-- Running directives in order on `o` leaves in each field the last value
given for it, or the field of `o`. -/
theorem foldl_directives (ds : List Directive) (o : options) :
    (ds.map Directive.func).foldl (fun o optionFunc => optionFunc o) o =
      { privateKey := lastValue Directive.privateKey? ds o.privateKey,
        apiKey := lastValue Directive.apiKey? ds o.apiKey,
        apiUrl := lastValue Directive.apiUrl? ds o.apiUrl,
        hc := lastValue Directive.client? ds o.hc,
        ctx := lastValue Directive.context? ds o.ctx,
        timeout := lastValue Directive.timeout? ds o.timeout } := by
  induction ds generalizing o with
  | nil => rfl
  | cons d ds ih =>
    simp only [List.map_cons, List.foldl_cons, lastValue_cons]
    rw [ih]
    cases d <;> rfl

/-- C5: `NewClient` runs the directives from left to right on the defaults:
each field of the resulting options holds the value of the last directive of
the sequence that targets it, and the default when none does: empty
`privateKey` and `apiKey`, `apiUrl` `https://api.fireblocks.io`, the client
`&http.Client{}`, the background context, a timeout of 5 seconds (5000000000
nanoseconds). The `Request` of the result holds the same options. -/
theorem NewClient_last_directive_wins (ds : List Directive) :
    (NewClient (ds.map Directive.func)).options =
      { privateKey := lastValue Directive.privateKey? ds (str ""),
        apiKey := lastValue Directive.apiKey? ds (str ""),
        apiUrl := lastValue Directive.apiUrl? ds (str "https://api.fireblocks.io"),
        hc := lastValue Directive.client? ds http.Client.zero,
        ctx := lastValue Directive.context? ds context.Context.background,
        timeout := lastValue Directive.timeout? ds (5000000000 : Int) } ∧
    (NewClient (ds.map Directive.func)).request.options =
      (NewClient (ds.map Directive.func)).options := by
  refine ⟨?_, rfl⟩
  simp only [NewClient]
  rw [foldl_directives]
  rfl

/-! ## The request sent (C6 to C8) -/

/-- What the request of a call holds, whatever the token: the URL, the two
credentials, the body and the method. -/
theorem Op.request_fields (r : Request) (token : GoString) (op : Op) :
    (op.request r token).URL = r.options.apiUrl ++ op.path ∧
    (op.request r token).Header.has (str "X-API-Key") = true ∧
    (op.request r token).Header.Get (str "X-API-Key") = r.options.apiKey ∧
    (op.request r token).Header.has (str "Authorization") = true ∧
    (op.request r token).Header.Get (str "Authorization") = str "Bearer " ++ token ∧
    (op.request r token).Body = op.attachedBody ∧
    (op.request r token).Method = op.method := by
  have h1 : str "X-API-Key" ≠ str "Authorization" := by decide
  have h2 : str "X-API-Key" ≠ str "Idempotency-Key" := by decide
  have h3 : str "Authorization" ≠ str "Idempotency-Key" := by decide
  cases op <;>
    simp only [Op.request, Op.path, Op.attachedBody, Op.method, resty.Request.SetHeader,
      resty.Request.SetBody, resty.Request.SetContext, resty.Client.R,
      http.Header.has_Set_self, http.Header.Get_Set_self,
      http.Header.has_Set_ne _ _ _ _ h1, http.Header.Get_Set_ne _ _ _ _ h1,
      http.Header.has_Set_ne _ _ _ _ h2, http.Header.Get_Set_ne _ _ _ _ h2,
      http.Header.has_Set_ne _ _ _ _ h3, http.Header.Get_Set_ne _ _ _ _ h3,
      and_self]

/-- The idempotency header of the request of a `post` call: present, with the
key of the options when they are given with a non-empty key, with the empty
string otherwise. -/
theorem Op.request_post_idempotency (r : Request) (token path : GoString) (body : GoAny)
    (requestOptions : Option RequestOptions) :
    ((Op.post path body requestOptions).request r token).Header.has (str "Idempotency-Key")
      = true ∧
    ((Op.post path body requestOptions).request r token).Header.Get (str "Idempotency-Key") =
      (match requestOptions with
       | some ro => if ro.IdempotencyKey ≠ str "" then ro.IdempotencyKey else str ""
       | none => str "") := by
  simp only [Op.request, resty.Request.SetHeader, resty.Request.SetBody,
    http.Header.has_Set_self, http.Header.Get_Set_self, and_self]

/-- A `post` call whose `signJwt` returned hands exactly its request to the
transport. -/
theorem Request.post_sent (w : World) (r : Request) (path : GoString) (body : GoAny)
    (requestOptions : Option RequestOptions) (token : GoString)
    (hsign : w.signJwt r path body = some token) :
    (Request.post w r path body requestOptions).sent =
      [(Op.post path body requestOptions).request r token] := by
  have h := Op.run_eq w r (Op.post path body requestOptions)
  simp only [Op.run, Op.path, Op.signedBody, hsign] at h
  rw [h, World.conclude_sent]

/-- C6 as stated fails: `post("/v1/transactions", "b", nil)` on the default
client dispatches a request whose header set holds `Idempotency-Key`, with the
empty string as its value; so does the same call with options whose key is
empty. -/
theorem post_without_key_sends_empty_header :
    (∃ req ∈ (Request.post (testWorld (Except.ok emptyOkResponse)) defaultClient.request
        (str "/v1/transactions") (GoAny.string (str "b")) none).sent,
      req.Header.has (str "Idempotency-Key") = true ∧
      req.Header.Get (str "Idempotency-Key") = str "") ∧
    (∃ req ∈ (Request.post (testWorld (Except.ok emptyOkResponse)) defaultClient.request
        (str "/v1/transactions") (GoAny.string (str "b"))
        (some { IdempotencyKey := str "" })).sent,
      req.Header.has (str "Idempotency-Key") = true ∧
      req.Header.Get (str "Idempotency-Key") = str "") := by
  decide

/-- C6, amended: for every `post` call whose `RequestOptions` is nil or has an
empty `IdempotencyKey`, the request dispatched (one, once `signJwt` has
returned its token) carries the header `Idempotency-Key` with the empty string
as its value: the header is in the header set. -/
theorem post_without_key_header_is_empty (w : World) (r : Request) (path : GoString)
    (body : GoAny) (requestOptions : Option RequestOptions) (token : GoString)
    (hkey : ∀ ro, requestOptions = some ro → ro.IdempotencyKey = str "")
    (hsign : w.signJwt r path body = some token) :
    ∃ req, (Request.post w r path body requestOptions).sent = [req] ∧
      req.Header.has (str "Idempotency-Key") = true ∧
      req.Header.Get (str "Idempotency-Key") = str "" := by
  refine ⟨_, Request.post_sent w r path body requestOptions token hsign, ?_⟩
  obtain ⟨hhas, hget⟩ := Op.request_post_idempotency r token path body requestOptions
  refine ⟨hhas, ?_⟩
  rw [hget]
  cases requestOptions with
  | none => rfl
  | some ro => simp [hkey ro rfl]

/-- C6, amended, at `post("/v1/transactions", "b", &RequestOptions{""})` on
the default client. -/
theorem post_without_key_header_is_empty_witness :
    (∀ ro, some ({ IdempotencyKey := str "" } : RequestOptions) = some ro →
      ro.IdempotencyKey = str "") ∧
    (testWorld (Except.ok emptyOkResponse)).signJwt defaultClient.request
        (str "/v1/transactions") (GoAny.string (str "b")) =
      some (str "jwt///v1/transactions/b") ∧
    ∃ req, (Request.post (testWorld (Except.ok emptyOkResponse)) defaultClient.request
        (str "/v1/transactions") (GoAny.string (str "b"))
        (some { IdempotencyKey := str "" })).sent = [req] ∧
      req.Header.has (str "Idempotency-Key") = true ∧
      req.Header.Get (str "Idempotency-Key") = str "" :=
  ⟨(fun ro h => by cases h; rfl), by decide,
   post_without_key_header_is_empty (testWorld (Except.ok emptyOkResponse))
     defaultClient.request (str "/v1/transactions") (GoAny.string (str "b"))
     (some { IdempotencyKey := str "" })
     (str "jwt///v1/transactions/b") (fun ro h => by cases h; rfl) (by decide)⟩

/-- C7: for every `post` call whose `RequestOptions` is non-nil with a
non-empty `IdempotencyKey` k, the request dispatched (one, once `signJwt` has
returned its token) carries the header `Idempotency-Key` with the value k. -/
theorem post_with_key_sends_key (w : World) (r : Request) (path : GoString) (body : GoAny)
    (ro : RequestOptions) (token : GoString)
    (hkey : ro.IdempotencyKey ≠ str "")
    (hsign : w.signJwt r path body = some token) :
    ∃ req, (Request.post w r path body (some ro)).sent = [req] ∧
      req.Header.has (str "Idempotency-Key") = true ∧
      req.Header.Get (str "Idempotency-Key") = ro.IdempotencyKey := by
  refine ⟨_, Request.post_sent w r path body (some ro) token hsign, ?_⟩
  obtain ⟨hhas, hget⟩ := Op.request_post_idempotency r token path body (some ro)
  refine ⟨hhas, ?_⟩
  rw [hget]
  simp [hkey]

/-- C7 at `post("/v1/transactions", "b", &RequestOptions{"key-1"})` on the
default client. -/
theorem post_with_key_sends_key_witness :
    (str "key-1" ≠ str "") ∧
    (testWorld (Except.ok emptyOkResponse)).signJwt defaultClient.request
        (str "/v1/transactions") (GoAny.string (str "b")) =
      some (str "jwt///v1/transactions/b") ∧
    ∃ req, (Request.post (testWorld (Except.ok emptyOkResponse)) defaultClient.request
        (str "/v1/transactions") (GoAny.string (str "b"))
        (some { IdempotencyKey := str "key-1" })).sent = [req] ∧
      req.Header.has (str "Idempotency-Key") = true ∧
      req.Header.Get (str "Idempotency-Key") = str "key-1" :=
  ⟨by decide, by decide,
   post_with_key_sends_key (testWorld (Except.ok emptyOkResponse)) defaultClient.request
     (str "/v1/transactions") (GoAny.string (str "b")) { IdempotencyKey := str "key-1" }
     (str "jwt///v1/transactions/b") (by decide) (by decide)⟩

/-- C8: for every configuration and every call of `ExtGet`, `get`, `post` or
`put`, with `token` what `signJwt` returned for the call's own path and, for
`post` and `put`, its own body, for `ExtGet` and `get` the empty string: the
one request dispatched targets `apiUrl ++ path` and carries `X-API-Key` with
the configured `apiKey` and `Authorization` with `"Bearer " ++ token`; for
`ExtGet` and `get` it has no body, for `post` and `put` the call's body. -/
theorem request_target_and_credentials (w : World) (r : Request) (op : Op) (token : GoString)
    (hsign : w.signJwt r op.path op.signedBody = some token) :
    ∃ req, (op.run w r).sent = [req] ∧
      req.URL = r.options.apiUrl ++ op.path ∧
      req.Header.has (str "X-API-Key") = true ∧
      req.Header.Get (str "X-API-Key") = r.options.apiKey ∧
      req.Header.has (str "Authorization") = true ∧
      req.Header.Get (str "Authorization") = str "Bearer " ++ token ∧
      req.Body = op.attachedBody ∧
      req.Method = op.method := by
  refine ⟨op.request r token, ?_, Op.request_fields r token op⟩
  rw [Op.run_eq, hsign]
  exact World.conclude_sent w _

/-- C8 at `get("/v1/vault/accounts")` on a client with the API key `k`: the
token is the one for that path and the empty body, and no body is attached. -/
theorem request_target_and_credentials_witness :
    (testWorld (Except.ok emptyOkResponse)).signJwt (NewClient [WithApiKey (str "k")]).request
        (Op.get (str "/v1/vault/accounts")).path (Op.get (str "/v1/vault/accounts")).signedBody =
      some (str "jwt/k//v1/vault/accounts/") ∧
    ∃ req, ((Op.get (str "/v1/vault/accounts")).run (testWorld (Except.ok emptyOkResponse))
        (NewClient [WithApiKey (str "k")]).request).sent = [req] ∧
      req.URL = (NewClient [WithApiKey (str "k")]).request.options.apiUrl ++
        (Op.get (str "/v1/vault/accounts")).path ∧
      req.Header.has (str "X-API-Key") = true ∧
      req.Header.Get (str "X-API-Key") = (NewClient [WithApiKey (str "k")]).request.options.apiKey ∧
      req.Header.has (str "Authorization") = true ∧
      req.Header.Get (str "Authorization") = str "Bearer " ++ str "jwt/k//v1/vault/accounts/" ∧
      req.Body = (Op.get (str "/v1/vault/accounts")).attachedBody ∧
      req.Method = (Op.get (str "/v1/vault/accounts")).method :=
  ⟨by decide,
   request_target_and_credentials (testWorld (Except.ok emptyOkResponse))
     (NewClient [WithApiKey (str "k")]).request (Op.get (str "/v1/vault/accounts"))
     (str "jwt/k//v1/vault/accounts/") (by decide)⟩

/-! ## Failures (C9 and C10) -/

/-- What a concluded call returns, when it returns: the body and no error,
or nil bytes and one error, which is the transport's error, or the text of
the response body, or the `"message"` of the decoded body. -/
theorem World.conclude_result (w : World) (req : resty.Request) (bytes : Option Bytes)
    (err : Option GoError) (h : (w.conclude req).result = Outcome.ret bytes err) :
    (∃ resp, w.execute req = Except.ok resp ∧ resp.IsError = false ∧
      bytes = some resp.Body ∧ err = none) ∨
    (∃ e, w.execute req = Except.error e ∧ bytes = none ∧ err = some e) ∨
    (∃ resp, w.execute req = Except.ok resp ∧ resp.IsError = true ∧ bytes = none ∧
      (err = some (errors.New (string resp.Body)) ∨
        ∃ errResp m, w.unmarshal resp.Body = Except.ok errResp ∧
          errResp.index (str "message") = GoAny.string m ∧ err = some (errors.New m))) := by
  unfold World.conclude at h
  split at h
  · next e he =>
    simp only [Outcome.ret.injEq] at h
    exact Or.inr (Or.inl ⟨e, he, h.1.symm, h.2.symm⟩)
  · next resp hresp =>
    split at h
    · next hstatus =>
      refine Or.inr (Or.inr ⟨resp, hresp, hstatus, ?_⟩)
      split at h
      · simp only [Outcome.ret.injEq] at h
        exact ⟨h.1.symm, Or.inl h.2.symm⟩
      · next errResp hdec =>
        split at h
        · next m hm =>
          simp only [Outcome.ret.injEq] at h
          exact ⟨h.1.symm, Or.inr ⟨errResp, m, hdec, hm, h.2.symm⟩⟩
        · exact Outcome.noConfusion h
    · next hstatus =>
      simp only [Outcome.ret.injEq] at h
      exact Or.inl ⟨resp, hresp, by simpa using hstatus, h.1.symm, h.2.symm⟩

/-- A concluded call hands no body to the decoder when the transport
failed. -/
theorem World.conclude_error (w : World) (req : resty.Request) (err : GoError)
    (h : w.execute req = Except.error err) :
    w.conclude req = { sent := [req], decoded := [], result := Outcome.ret none (some err) } := by
  simp [World.conclude, h]

/-- C9: for `ExtGet`, `get`, `post` and `put` alike, when the transport
reports a failure for the call's request, the call returns nil bytes and that
same error, has handed nothing to `json.Unmarshal`, and has dispatched the one
request, once. And every call that returns gives either bytes with a nil
error, or nil bytes with an error. -/
theorem transport_error_is_returned (w : World) (r : Request) (op : Op) :
    (∀ err, (∃ req ∈ (op.run w r).sent, w.execute req = Except.error err) →
      (op.run w r).result = Outcome.ret none (some err) ∧
      (op.run w r).decoded = [] ∧
      (op.run w r).sent.length = 1) ∧
    (∀ bytes err, (op.run w r).result = Outcome.ret bytes err →
      (bytes.isSome = true ∧ err = none) ∨ (bytes = none ∧ err.isSome = true)) := by
  constructor
  · intro err hreply
    obtain ⟨req, hrun, hex⟩ := Op.run_of_reply w r op _ hreply
    rw [hrun, World.conclude_error w req err hex]
    exact ⟨rfl, rfl, rfl⟩
  · intro bytes err hret
    rw [Op.run_eq] at hret
    cases hsig : w.signJwt r op.path op.signedBody with
    | none =>
      rw [hsig] at hret
      exact Outcome.noConfusion hret
    | some token =>
      rw [hsig] at hret
      rcases World.conclude_result w _ bytes err hret with
        ⟨resp, _, _, hb, he⟩ | ⟨e, _, hb, he⟩ | ⟨resp, _, _, hb, he⟩
      · exact Or.inl ⟨by rw [hb]; rfl, he⟩
      · exact Or.inr ⟨hb, by rw [he]; rfl⟩
      · refine Or.inr ⟨hb, ?_⟩
        rcases he with he | ⟨_, _, _, _, he⟩ <;> (rw [he]; rfl)

/-- C9 at `post("/v1/transactions", "b", nil)` on the default client, the
transport timing out: the call returns nil bytes and the timeout error. -/
theorem transport_error_is_returned_witness :
    (∃ req ∈ ((Op.post (str "/v1/transactions") (GoAny.string (str "b")) none).run
        (testWorld (Except.error timeoutError)) defaultClient.request).sent,
      (testWorld (Except.error timeoutError)).execute req = Except.error timeoutError) ∧
    ((Op.post (str "/v1/transactions") (GoAny.string (str "b")) none).run
        (testWorld (Except.error timeoutError)) defaultClient.request).result =
      Outcome.ret none (some timeoutError) ∧
    ((Op.post (str "/v1/transactions") (GoAny.string (str "b")) none).run
        (testWorld (Except.error timeoutError)) defaultClient.request).decoded = [] ∧
    ((Op.post (str "/v1/transactions") (GoAny.string (str "b")) none).run
        (testWorld (Except.error timeoutError)) defaultClient.request).sent.length = 1 :=
  ⟨⟨_, List.Mem.head _, rfl⟩,
   (transport_error_is_returned (testWorld (Except.error timeoutError)) defaultClient.request
     (Op.post (str "/v1/transactions") (GoAny.string (str "b")) none)).1 timeoutError
     ⟨_, List.Mem.head _, rfl⟩⟩

/-- C10 as stated fails. The default client has the empty private key.
Whatever `signJwt` is, `get("/v1/vault/accounts")` on it does not both dispatch
nothing and return an error; with the stand-in signer, which returns a token,
the request is dispatched and the call returns the response body with a nil
error. -/
theorem empty_private_key_gives_no_signing_error :
    defaultClient.request.options.privateKey = str "" ∧
    (¬ ∃ sign : Request → GoString → GoAny → Option GoString,
      (Request.get { testWorld (Except.ok emptyOkResponse) with signJwt := sign }
          defaultClient.request (str "/v1/vault/accounts")).sent = [] ∧
      ∃ err, (Request.get { testWorld (Except.ok emptyOkResponse) with signJwt := sign }
          defaultClient.request (str "/v1/vault/accounts")).result =
        Outcome.ret none (some err)) ∧
    (Request.get (testWorld (Except.ok emptyOkResponse)) defaultClient.request
        (str "/v1/vault/accounts")).sent.length = 1 ∧
    (Request.get (testWorld (Except.ok emptyOkResponse)) defaultClient.request
        (str "/v1/vault/accounts")).result = Outcome.ret (some []) none := by
  refine ⟨by decide, ?_, by decide, by decide⟩
  rintro ⟨sign, hsent, err, hres⟩
  have h := Op.run_eq { testWorld (Except.ok emptyOkResponse) with signJwt := sign }
    defaultClient.request (Op.get (str "/v1/vault/accounts"))
  simp only [Op.run, Op.path, Op.signedBody] at h
  rw [h] at hsent hres
  cases hsig : sign defaultClient.request (str "/v1/vault/accounts") (GoAny.string (str "")) with
  | none =>
    rw [hsig] at hres
    exact Outcome.noConfusion hres
  | some token =>
    rw [hsig, World.conclude_sent] at hsent
    exact List.cons_ne_nil _ _ hsent

/-- C10, amended: the four methods have no signing-error result, whatever the
private key. If `signJwt` returns a token, exactly one request is dispatched,
carrying `Authorization` with `"Bearer " ++ token`, and an error the call
returns is the transport's error for that request, or is made from the body of
an error-status response to it. If `signJwt` does not return, nothing is
dispatched and the call returns nothing. -/
theorem no_signing_error_result (w : World) (r : Request) (op : Op) :
    (∀ token, w.signJwt r op.path op.signedBody = some token →
      ∃ req, (op.run w r).sent = [req] ∧
        req.Header.Get (str "Authorization") = str "Bearer " ++ token ∧
        ∀ bytes err, (op.run w r).result = Outcome.ret bytes (some err) →
          w.execute req = Except.error err ∨
          ∃ resp, w.execute req = Except.ok resp ∧ resp.IsError = true ∧
            (err = errors.New (string resp.Body) ∨
              ∃ errResp m, w.unmarshal resp.Body = Except.ok errResp ∧
                errResp.index (str "message") = GoAny.string m ∧ err = errors.New m)) ∧
    (w.signJwt r op.path op.signedBody = none →
      (op.run w r).sent = [] ∧ (op.run w r).result = Outcome.signingAborted) := by
  constructor
  · intro token hsig
    refine ⟨op.request r token, ?_, (Op.request_fields r token op).2.2.2.2.1, ?_⟩
    · rw [Op.run_eq, hsig]
      exact World.conclude_sent w _
    · intro bytes err hret
      rw [Op.run_eq, hsig] at hret
      rcases World.conclude_result w _ bytes (some err) hret with
        ⟨_, _, _, _, he⟩ | ⟨e, hex, _, he⟩ | ⟨resp, hex, hstatus, _, he⟩
      · exact Option.noConfusion he
      · cases he
        exact Or.inl hex
      · refine Or.inr ⟨resp, hex, hstatus, ?_⟩
        rcases he with he | ⟨errResp, m, hdec, hm, he⟩
        · cases he
          exact Or.inl rfl
        · cases he
          exact Or.inr ⟨errResp, m, hdec, hm, rfl⟩
  · intro hsig
    rw [Op.run_eq, hsig]
    exact ⟨rfl, rfl⟩

/-- C10, amended, at `get("/v1/vault/accounts")` on the default client, whose
private key is empty: the stand-in signer returns a token and the request
goes out with it. -/
theorem no_signing_error_result_witness :
    (testWorld (Except.ok emptyOkResponse)).signJwt defaultClient.request
        (Op.get (str "/v1/vault/accounts")).path (Op.get (str "/v1/vault/accounts")).signedBody =
      some (str "jwt///v1/vault/accounts/") ∧
    ∃ req, ((Op.get (str "/v1/vault/accounts")).run (testWorld (Except.ok emptyOkResponse))
        defaultClient.request).sent = [req] ∧
      req.Header.Get (str "Authorization") = str "Bearer " ++ str "jwt///v1/vault/accounts/" :=
  ⟨by decide,
   match (no_signing_error_result (testWorld (Except.ok emptyOkResponse)) defaultClient.request
     (Op.get (str "/v1/vault/accounts"))).1 (str "jwt///v1/vault/accounts/") (by decide) with
   | ⟨req, hsent, hauth, _⟩ => ⟨req, hsent, hauth⟩⟩
